import Mathlib

/-!
Shallow embedding of the siggo conversation engine, from
`src/signal/message.go` (wire envelope types and attachment path resolution)
and `src/widgets/widgets.go` (UI-side operations over the conversation state).
The `model` package (Conversation Store, Send Dispatcher) is not part of the
provided sources; each of its operations is modelled from the specification,
and its doc comment says so.
-/

namespace Siggo

/-- A contact: a network address (phone-number-like string), a display name and
a stable ordering index (spec section 3; `model.Contact` is used from
`widgets.go` via its `Number` field, `String()` and sorting by index). -/
structure Contact where
  Number : String
  Name : String
  Index : Nat
deriving DecidableEq

/-- Wire attachment record (`src/signal/message.go` lines 54-59). -/
structure Attachment where
  ContentType : String
  Filename : String
  ID : String
  Size : Int
deriving DecidableEq

/-- Go `filepath.Join`: empty path elements are ignored and the remaining ones
are joined with a slash separator (the trailing `Clean` pass is the identity on
the already-clean elements used by `Attachment.Path`). -/
def filepathJoin : List String → String
  | [] => ""
  | p :: rest =>
    if p = "" then filepathJoin rest
    else if filepathJoin rest = "" then p
    else p ++ "/" ++ filepathJoin rest

/-- Embeds `Attachment.Path` (`src/signal/message.go` lines 62-73).
`GetSignalFolder` is not under `src/`; modelled from the spec: it yields the
configured storage root, taken here as the parameter `signalFolder`. -/
def Attachment.Path (signalFolder : String) (a : Attachment) : String :=
  if a.ID = "" then a.Filename
  else filepathJoin [signalFolder, "attachments", a.ID]

/-- A message of a conversation (spec section 3; the field names are the ones
`ShowTempSentMsg` constructs in `src/widgets/widgets.go` lines 355-367, plus
the `Source` half of the `(source, timestamp)` identity the spec prescribes;
`model.Message` itself is not under `src/`). -/
structure Message where
  Content : String
  From : String
  Source : String
  Timestamp : Int
  IsDelivered : Bool
  IsRead : Bool
  FromSelf : Bool
  Attachments : List Attachment
deriving DecidableEq

/-- The `(source, timestamp)` deduplication identity of a message
(spec section 3). -/
def Message.ident (m : Message) : String × Int :=
  (m.Source, m.Timestamp)

/-- A per-contact conversation (spec section 3; `widgets.go` reads the fields
`MessageOrder`, `Messages` and `HasNewMessage` of `model.Conversation`, which
itself is not under `src/`). The Go message map is embedded as an association
list keyed by message identity; `PendingAttachments` holds the attachments
queued for the next send. -/
structure Conversation where
  Contact : Contact
  Messages : List ((String × Int) × Message)
  MessageOrder : List (String × Int)
  HasNewMessage : Bool
  PendingAttachments : List Attachment
deriving DecidableEq

/-- A fresh, empty conversation for a contact (spec section 4.3: `ensure`
creates an empty conversation). -/
def newConversation (c : Contact) : Conversation :=
  ⟨c, [], [], false, []⟩

/-- Lookup of a message identity in the conversation's mapping, as the Go map
read `conv.Messages[ID]` performs it. -/
def Conversation.findEntry (conv : Conversation) (ident : String × Int) :
    Option ((String × Int) × Message) :=
  conv.Messages.find? (fun p => p.1 == ident)

/-- Whether a message with the given `(source, timestamp)` identity is already
recorded in the conversation. -/
def Conversation.hasMessage (conv : Conversation) (ident : String × Int) : Bool :=
  (conv.findEntry ident).isSome

/-- Wire receipt payload (`src/signal/message.go` lines 47-52). -/
structure ReceiptMessage where
  When : Int
  IsDelivery : Bool
  IsRead : Bool
  Timestamps : List Int
deriving DecidableEq

/-- Wire synced-sent-message payload (`src/signal/message.go` lines 28-35).
The untyped pass-through field `GroupInfo` (Go `interface{}`) is opaque and not
modelled. -/
structure SentMessage where
  Timestamp : Int
  Message : String
  ExpiresInSeconds : Int
  Attachments : List Attachment
  Destination : String
deriving DecidableEq

/-- Wire direct data-message payload (`src/signal/message.go` lines 37-43).
The untyped pass-through field `GroupInfo` (Go `interface{}`) is opaque and not
modelled. -/
structure DataMessage where
  Timestamp : Int
  Message : String
  ExpiresInSeconds : Int
  Attachments : List Attachment
deriving DecidableEq

/-- Wire sync-message wrapper (`src/signal/message.go` lines 22-26). The
untyped pass-through fields (Go `interface{}`) are opaque and not modelled. -/
structure SyncMessage where
  SentMessage : Option SentMessage
deriving DecidableEq

/-- Wire envelope (`src/signal/message.go` lines 11-20). Each payload pointer
becomes an `Option`; `CallMessage` is an opaque Go `interface{}`, so only its
presence is modelled. -/
structure Envelope where
  Source : String
  Timestamp : Int
  IsReceipt : Bool
  SyncMessage : Option SyncMessage
  CallMessage : Option Unit
  ReceiptMessage : Option ReceiptMessage
  DataMessage : Option DataMessage
  SourceDevice : Int
deriving DecidableEq

/-- The synced-sent-message payload of an envelope, when its sync variant is
populated down to an actual sent message. -/
def Envelope.sentOf (e : Envelope) : Option SentMessage :=
  e.SyncMessage.bind SyncMessage.SentMessage

/-- Classification outcome of one envelope (spec sections 3 and 4.1). -/
inductive EnvelopeKind where
  | data (d : DataMessage)
  | sync (s : SentMessage)
  | receipt (r : ReceiptMessage)
  | call
  | ignored
deriving DecidableEq

/-- Modelled from the spec: the Ingestion Loop's classification of a decoded
envelope (spec sections 3, 4.1 and 4.5; the classifying code lives in the
`model` package, which is not under `src/`). The direct data-message variant
wins over all others, then the synced-sent-message variant, then the receipt
variant, then call signaling; an envelope with no populated variant is
ignored. -/
def classify (e : Envelope) : EnvelopeKind :=
  match e.DataMessage with
  | some d => .data d
  | none =>
    match e.sentOf with
    | some s => .sync s
    | none =>
      match e.ReceiptMessage with
      | some r => .receipt r
      | none =>
        match e.CallMessage with
        | some _ => .call
        | none => .ignored

/-- Modelled from the spec: `applyIncoming` of the Conversation Store (spec
section 4.3; the `model` package is not under `src/`). A message whose
`(source, timestamp)` identity already exists is discarded; otherwise it is
appended to the mapping and to the ordered sequence, and `HasNewMessage` is set
unless the conversation is currently active. -/
def applyIncoming (active : Bool) (conv : Conversation) (msg : Message) :
    Conversation :=
  if msg.ident ∈ conv.Messages.map Prod.fst then conv
  else
    { conv with
      Messages := conv.Messages ++ [(msg.ident, msg)]
      MessageOrder := conv.MessageOrder ++ [msg.ident]
      HasNewMessage := if active then conv.HasNewMessage else true }

/-- A sequence of `applyIncoming` calls, each with its own activity flag. -/
def applyCalls (conv : Conversation) : List (Bool × Message) → Conversation
  | [] => conv
  | (a, m) :: rest => applyCalls (applyIncoming a conv m) rest

/-- Modelled from the spec: the per-message effect of a receipt (spec section
4.3; the `model` package is not under `src/`). A message is touched exactly
when its timestamp is in the receipt's batch and it was sent by the local
user; a delivery receipt sets the delivered flag and a read receipt sets the
read flag. -/
def receiptApply (r : ReceiptMessage) (m : Message) : Message :=
  if m.FromSelf = true ∧ m.Timestamp ∈ r.Timestamps then
    { m with
      IsDelivered := m.IsDelivered || r.IsDelivery
      IsRead := m.IsRead || r.IsRead }
  else m

/-- Modelled from the spec: `applyReceipt` of the Conversation Store (spec
section 4.3; the `model` package is not under `src/`). Every message of the
conversation goes through `receiptApply`; a timestamp with no matching
self-sent message is silently ignored. -/
def applyReceipt (conv : Conversation) (r : ReceiptMessage) : Conversation :=
  { conv with
    Messages := conv.Messages.map (fun p => (p.1, receiptApply r p.2)) }

/-- Embeds the `conv.HasNewMessage = false` assignment performed by
`ConversationPanel.Update` when a conversation becomes the displayed one
(`src/widgets/widgets.go` line 567; spec section 4.3 calls this
`markViewed`). -/
def markViewed (conv : Conversation) : Conversation :=
  { conv with HasNewMessage := false }

/-- Modelled from the spec: the Send Dispatcher's `send` (spec section 4.6;
`model.Siggo.Send` is not under `src/`, only its caller `SendPanel.Send`). It
builds the local echo message (`FromSelf = true`, not delivered, not read,
carrying the conversation's pending attachments, which are cleared) and
applies it to the Conversation Store at once, before any network confirmation;
the state returned here is the store's state as the UI reads it back
immediately after the call. -/
def send (self : String) (now : Int) (conv : Conversation) (text : String) :
    Conversation :=
  let echo : Message :=
    { Content := text
      From := self
      Source := self
      Timestamp := now
      IsDelivered := false
      IsRead := false
      FromSelf := true
      Attachments := conv.PendingAttachments }
  applyIncoming true { conv with PendingAttachments := [] } echo

/-- Outcome of the view-refresh `ChatWindow.update`; `panicked` models the Go
`panic(...)` call, which aborts the whole process. -/
inductive UpdateResult where
  | noop
  | updated (conv : Conversation)
  | panicked (msg : String)
deriving DecidableEq

/-- Embeds `ChatWindow.currentConversation` (`src/widgets/widgets.go` lines
261-268): a map lookup that returns a recoverable error when the current
contact has no conversation. -/
def currentConversation (convs : List (Contact × Conversation))
    (current : Contact) : Except String Conversation :=
  match convs.find? (fun p => p.1 == current) with
  | some p => .ok p.2
  | none => .error "no conversation for current contact"

/-- Embeds `ChatWindow.update` (`src/widgets/widgets.go` lines 377-388): when
the conversations map is non-nil and the current contact has a conversation,
the conversation panel is refreshed with it (which clears `HasNewMessage`,
line 567); when the lookup misses, the Go code calls
`panic("no conversation for current contact")`. -/
def update (convs : Option (List (Contact × Conversation)))
    (current : Contact) : UpdateResult :=
  match convs with
  | none => .noop
  | some cs =>
    match cs.find? (fun p => p.1 == current) with
    | some p => .updated (markViewed p.2)
    | none => .panicked "no conversation for current contact"

/-- Inner loop of `ChatWindow.getAttachments` (`src/widgets/widgets.go` lines
131-137): walk `MessageOrder`, look each identifier up in the message map and
append that message's attachments when it has any. A `none` result models the
nil-pointer dereference the Go code performs when an identifier is missing
from the map. -/
def getAttachmentsGo (msgs : List ((String × Int) × Message)) :
    List (String × Int) → List Attachment → Option (List Attachment)
  | [], acc => some acc
  | id :: rest, acc =>
    match msgs.find? (fun p => p.1 == id) with
    | none => none
    | some p =>
      getAttachmentsGo msgs rest
        (if 0 < p.2.Attachments.length then acc ++ p.2.Attachments else acc)

/-- Embeds `ChatWindow.getAttachments` (`src/widgets/widgets.go` lines
123-138) on one conversation, starting from the empty accumulator
`a := make([]*signal.Attachment, 0)`. -/
def getAttachments (conv : Conversation) : Option (List Attachment) :=
  getAttachmentsGo conv.Messages conv.MessageOrder []

/-- The specification's description of the attachments query (spec section
4.3): the concatenation of the attachment lists of the conversation's
messages, in the order of the ordered message sequence. -/
def attachmentsSpec (conv : Conversation) : List Attachment :=
  (conv.MessageOrder.map (fun id =>
    match conv.findEntry id with
    | some p => p.2.Attachments
    | none => [])).flatten

/-- State of the contact list panel that `Next`, `Previous` and `GotoIndex`
read and write (`src/widgets/widgets.go` lines 465-471). -/
structure ContactListPanel where
  sortedContacts : List Contact
  currentIndex : Int
deriving DecidableEq

/-- Embeds `ContactListPanel.Next` (`src/widgets/widgets.go` lines 473-478):
the index is incremented while strictly below `len - 1` and the contact at the
resulting index is returned. A `none` second component models the Go
index-out-of-range panic. -/
def ContactListPanel.Next (cl : ContactListPanel) :
    ContactListPanel × Option Contact :=
  let i :=
    if cl.currentIndex < (cl.sortedContacts.length : Int) - 1 then
      cl.currentIndex + 1
    else cl.currentIndex
  ({ cl with currentIndex := i },
    if i < 0 then none else cl.sortedContacts[i.toNat]?)

/-- Embeds `ContactListPanel.Previous` (`src/widgets/widgets.go` lines
480-485): the index is decremented while strictly positive and the contact at
the resulting index is returned. A `none` second component models the Go
index-out-of-range panic. -/
def ContactListPanel.Previous (cl : ContactListPanel) :
    ContactListPanel × Option Contact :=
  let i :=
    if 0 < cl.currentIndex then cl.currentIndex - 1 else cl.currentIndex
  ({ cl with currentIndex := i },
    if i < 0 then none else cl.sortedContacts[i.toNat]?)

/-- Embeds `ContactListPanel.GotoIndex` (`src/widgets/widgets.go` lines
489-498), with explicit recursion fuel: the Go function recurses with no
decreasing measure, and a `none` result at every fuel value models its
non-termination. On success the pair holds the index stored into
`currentIndex` and the returned contact. -/
def GotoIndex (contacts : List Contact) : Nat → Int → Option (Int × Contact)
  | 0, _ => none
  | fuel + 1, index =>
    if index < 0 then GotoIndex contacts fuel ((contacts.length : Int) - index)
    else if (contacts.length : Int) ≤ index then GotoIndex contacts fuel (-1)
    else (contacts[index.toNat]?).map (fun c => (index, c))

/-- The ordered-sequence/mapping lock-step invariant of spec section 3: each
identity occurs at most once on either side and the two sides carry the same
identities, so every identifier of the ordered sequence has exactly one entry
in the mapping and vice versa. -/
def lockStep (conv : Conversation) : Prop :=
  conv.MessageOrder.Nodup ∧ (conv.Messages.map Prod.fst).Nodup ∧
    ∀ ident, ident ∈ conv.MessageOrder ↔ ident ∈ conv.Messages.map Prod.fst

/-- A concrete contact for the example states below. -/
def exContact : Contact := ⟨"+15550001", "alice", 0⟩

/-- A concrete incoming message (not from the local user). -/
def exMsg : Message :=
  ⟨"hi", "alice", "+15550001", 1000, false, false, false, []⟩

/-- A concrete attachment carrying a remote identity. -/
def exAtt1 : Attachment := ⟨"image/png", "a.png", "remote-id-1", 10⟩

/-- A concrete attachment without a remote identity (filename fallback). -/
def exAtt2 : Attachment := ⟨"image/jpeg", "/tmp/b.jpg", "", 20⟩

/-- A conversation that already holds `exMsg` and has no unseen message: the
state in which a redelivered duplicate of `exMsg` arrives. -/
def exConvDup : Conversation :=
  ⟨exContact, [(exMsg.ident, exMsg)], [exMsg.ident], false, []⟩

/-- A concrete self-sent message at timestamp 1000, awaiting its receipts. -/
def exSelfMsg : Message :=
  ⟨"sent from here", " ~ ", "+15550009", 1000, false, false, true, []⟩

/-- A conversation holding one self-sent message awaiting receipts. -/
def exConvSelf : Conversation :=
  ⟨exContact, [(exSelfMsg.ident, exSelfMsg)], [exSelfMsg.ident], false, []⟩

/-- A concrete delivery receipt for the batch `[1000]`. -/
def exReceipt : ReceiptMessage := ⟨2000, true, false, [1000]⟩

/-- Three concrete messages whose attachment lists are non-empty, empty and
two-element, used to exercise the attachments query. -/
def exMsgA : Message :=
  ⟨"one", "alice", "+15550001", 1, false, false, false, [exAtt1]⟩

/-- Second message of the attachments-query example (no attachments). -/
def exMsgB : Message :=
  ⟨"two", "alice", "+15550001", 2, false, false, false, []⟩

/-- Third message of the attachments-query example (two attachments). -/
def exMsgC : Message :=
  ⟨"three", "alice", "+15550001", 3, false, false, false, [exAtt2, exAtt1]⟩

/-- A conversation with three messages in arrival order. -/
def exConvAtt : Conversation :=
  ⟨exContact,
   [(exMsgA.ident, exMsgA), (exMsgB.ident, exMsgB), (exMsgC.ident, exMsgC)],
   [exMsgA.ident, exMsgB.ident, exMsgC.ident], false, []⟩

/-- A concrete direct data-message payload. -/
def exData : DataMessage := ⟨1000, "hi", 0, []⟩

/-- A concrete synced sent-message payload. -/
def exSent : SentMessage := ⟨1001, "yo", 0, [], "+15550002"⟩

/-- An envelope populating every payload variant at once: the tie-break case
of the classification policy. -/
def exEnvelope : Envelope :=
  ⟨"+15550001", 1000, false, some ⟨some exSent⟩, some (), some exReceipt,
   some exData, 1⟩

/-! Supporting lemmas. -/

/-- Applying a message whose identity is already recorded leaves the
conversation untouched. -/
theorem applyIncoming_of_mem (a : Bool) (conv : Conversation) (m : Message)
    (h : m.ident ∈ conv.Messages.map Prod.fst) :
    applyIncoming a conv m = conv := by
  simp [applyIncoming, h]

/-- One `applyIncoming` call preserves the lock-step invariant. -/
theorem applyIncoming_lockStep (a : Bool) (conv : Conversation) (m : Message)
    (h : lockStep conv) : lockStep (applyIncoming a conv m) := by
  by_cases hm : m.ident ∈ conv.Messages.map Prod.fst
  · rw [applyIncoming_of_mem a conv m hm]; exact h
  · obtain ⟨h1, h2, h3⟩ := h
    have hmo : m.ident ∉ conv.MessageOrder := fun hx => hm ((h3 _).mp hx)
    refine ⟨?_, ?_, ?_⟩
    · simp [applyIncoming, hm, List.nodup_append, h1, hmo]
    · simp [applyIncoming, hm, List.nodup_append, h2]
    · intro ident
      simp only [applyIncoming, hm, if_false, List.map_append, List.mem_append]
      simp [h3]

/-- Any sequence of `applyIncoming` calls preserves the lock-step invariant. -/
theorem applyCalls_lockStep (calls : List (Bool × Message)) :
    ∀ conv : Conversation, lockStep conv → lockStep (applyCalls conv calls) := by
  induction calls with
  | nil => intro conv h; exact h
  | cons c rest ih =>
    intro conv h
    exact ih _ (applyIncoming_lockStep c.1 conv c.2 h)

/-- C1: for every sequence of `applyIncoming` calls on a conversation
satisfying the lock-step invariant, the ordered message sequence and the
identity-to-message mapping stay in lock-step after every call, and applying a
message whose `(source, timestamp)` identity already exists in the reached
conversation leaves the ordered sequence's length unchanged (the duplicate is
discarded). -/
theorem C1_applyIncoming_lockStep_dedup (conv : Conversation)
    (calls : List (Bool × Message)) (h : lockStep conv) :
    (∀ n : Nat, lockStep (applyCalls conv (calls.take n))) ∧
    (∀ (n : Nat) (a : Bool) (m : Message),
      m.ident ∈ (applyCalls conv (calls.take n)).Messages.map Prod.fst →
      (applyIncoming a (applyCalls conv (calls.take n)) m).MessageOrder.length
        = (applyCalls conv (calls.take n)).MessageOrder.length) := by
  constructor
  · intro n; exact applyCalls_lockStep _ _ h
  · intro n a m hm
    rw [applyIncoming_of_mem a _ m hm]

/-- Witness for C1 at the empty conversation of a concrete contact and a
one-call sequence. -/
theorem C1_witness :
    lockStep (newConversation exContact) ∧
    ((∀ n : Nat,
        lockStep (applyCalls (newConversation exContact) ([(false, exMsg)].take n))) ∧
     (∀ (n : Nat) (a : Bool) (m : Message),
       m.ident ∈
         (applyCalls (newConversation exContact) ([(false, exMsg)].take n)).Messages.map Prod.fst →
       (applyIncoming a
          (applyCalls (newConversation exContact) ([(false, exMsg)].take n)) m).MessageOrder.length
         = (applyCalls (newConversation exContact)
             ([(false, exMsg)].take n)).MessageOrder.length)) :=
  have hls : lockStep (newConversation exContact) :=
    ⟨List.nodup_nil, List.nodup_nil, fun i => by simp [newConversation]⟩
  ⟨hls, C1_applyIncoming_lockStep_dedup _ _ hls⟩

/-- C2: refuted on the code: refreshing the view while the current contact has
no conversation does not produce a recoverable NotFound error; `update` hits
the `panic("no conversation for current contact")` call of
`src/widgets/widgets.go` line 385, aborting the whole process. Here the
conversations map is non-nil but holds no entry for the current contact. -/
theorem C2_update_panics :
    update (some []) exContact = .panicked "no conversation for current contact" :=
  rfl

/-- A string built around a slash separator is never empty. -/
theorem append_sep_ne_empty (p s : String) : p ++ "/" ++ s ≠ "" := by
  intro h
  have hlen := congrArg String.length h
  rw [String.length_append, String.length_append,
    show ("/" : String).length = 1 from rfl,
    show ("" : String).length = 0 from rfl] at hlen
  omega

/-- Computation of `filepathJoin` on three non-empty path elements. -/
theorem filepathJoin_three (root b id : String) (hroot : root ≠ "")
    (hb : b ≠ "") (hid : id ≠ "") :
    filepathJoin [root, b, id] = root ++ "/" ++ (b ++ "/" ++ id) := by
  have h1 : filepathJoin [id] = id := by
    simp [filepathJoin, hid]
  have h2 : filepathJoin [b, id] = b ++ "/" ++ id := by
    simp [filepathJoin, hb, hid]
  rw [show filepathJoin [root, b, id]
        = if root = "" then filepathJoin [b, id]
          else if filepathJoin [b, id] = "" then root
          else root ++ "/" ++ filepathJoin [b, id] from rfl,
      if_neg hroot, h2, if_neg (append_sep_ne_empty b id)]

/-- C3: resolving an attachment's path yields
`storageRoot/attachments/<id>` when the attachment carries a non-empty remote
identity, and the original filename verbatim when it does not. -/
theorem C3_attachment_path (root : String) (a : Attachment)
    (hroot : root ≠ "") :
    (a.ID ≠ "" → Attachment.Path root a = root ++ "/attachments/" ++ a.ID) ∧
    (a.ID = "" → Attachment.Path root a = a.Filename) := by
  constructor
  · intro hid
    rw [Attachment.Path, if_neg hid,
      filepathJoin_three root "attachments" a.ID hroot (by decide) hid,
      show ("attachments" ++ "/" : String) = "attachments/" from by decide,
      ← String.append_assoc (root ++ "/") "attachments/" a.ID,
      String.append_assoc root "/" "attachments/",
      show ("/" ++ "attachments/" : String) = "/attachments/" from by decide]
  · intro hid
    rw [Attachment.Path, if_pos hid]

/-- Witness for C3 at a concrete storage root, one attachment with a remote
identity and one without. -/
theorem C3_witness :
    (("/home/u/.local/share/signal-cli" : String) ≠ "" ∧
      Attachment.Path "/home/u/.local/share/signal-cli" exAtt1
        = "/home/u/.local/share/signal-cli" ++ "/attachments/" ++ exAtt1.ID) ∧
    Attachment.Path "/home/u/.local/share/signal-cli" exAtt2
      = exAtt2.Filename :=
  ⟨⟨by decide,
    (C3_attachment_path "/home/u/.local/share/signal-cli" exAtt1
      (by decide)).1 (by decide)⟩,
   (C3_attachment_path "/home/u/.local/share/signal-cli" exAtt2
      (by decide)).2 rfl⟩

/-- C4: classification of a decoded envelope resolves overlapping populated
variants by precedence (direct data message, then synced sent message, then
receipt, then call signaling), and an envelope with no populated variant is
classified as ignored, never as an error. -/
theorem C4_classify_precedence (e : Envelope) :
    (∀ d, e.DataMessage = some d → classify e = .data d) ∧
    (e.DataMessage = none → ∀ s, e.sentOf = some s → classify e = .sync s) ∧
    (e.DataMessage = none → e.sentOf = none →
      ∀ r, e.ReceiptMessage = some r → classify e = .receipt r) ∧
    (e.DataMessage = none → e.sentOf = none → e.ReceiptMessage = none →
      e.CallMessage.isSome = true → classify e = .call) ∧
    (e.DataMessage = none → e.sentOf = none → e.ReceiptMessage = none →
      e.CallMessage = none → classify e = .ignored) := by
  refine ⟨?_, ?_, ?_, ?_, ?_⟩
  · intro d hd; simp [classify, hd]
  · intro hd s hs; simp [classify, hd, hs]
  · intro hd hs r hr; simp [classify, hd, hs, hr]
  · intro hd hs hr hc
    obtain ⟨u, hu⟩ := Option.isSome_iff_exists.mp hc
    simp [classify, hd, hs, hr, hu]
  · intro hd hs hr hc; simp [classify, hd, hs, hr, hc]

/-- Witness for C4 at an envelope populating all four payload variants at
once: the direct data-message variant wins. -/
theorem C4_witness : classify exEnvelope = .data exData :=
  (C4_classify_precedence exEnvelope).1 exData rfl

/-- C5: a receipt touches exactly the messages whose timestamp is in the
receipt's batch and whose `FromSelf` flag is true, where it sets the delivered
flag for a delivery receipt and the read flag for a read receipt and changes
nothing else; every other message, the ordered sequence and the rest of the
conversation are unchanged, and when no message matches, the whole
conversation is returned unchanged. -/
theorem C5_applyReceipt (conv : Conversation) (r : ReceiptMessage) :
    ((applyReceipt conv r).MessageOrder = conv.MessageOrder ∧
     (applyReceipt conv r).HasNewMessage = conv.HasNewMessage ∧
     (applyReceipt conv r).PendingAttachments = conv.PendingAttachments) ∧
    List.Forall₂ (fun p q =>
        p.1 = q.1 ∧
        (p.2.FromSelf = true ∧ p.2.Timestamp ∈ r.Timestamps →
          q.2.IsDelivered = (p.2.IsDelivered || r.IsDelivery) ∧
          q.2.IsRead = (p.2.IsRead || r.IsRead) ∧
          q.2.Content = p.2.Content ∧ q.2.From = p.2.From ∧
          q.2.Source = p.2.Source ∧ q.2.Timestamp = p.2.Timestamp ∧
          q.2.FromSelf = p.2.FromSelf ∧
          q.2.Attachments = p.2.Attachments) ∧
        (¬(p.2.FromSelf = true ∧ p.2.Timestamp ∈ r.Timestamps) → q.2 = p.2))
      conv.Messages (applyReceipt conv r).Messages ∧
    ((∀ p ∈ conv.Messages,
        ¬(p.2.FromSelf = true ∧ p.2.Timestamp ∈ r.Timestamps)) →
      applyReceipt conv r = conv) := by
  refine ⟨⟨rfl, rfl, rfl⟩, ?_, ?_⟩
  · rw [show (applyReceipt conv r).Messages
        = conv.Messages.map (fun p => (p.1, receiptApply r p.2)) from rfl]
    rw [List.forall₂_map_right_iff, List.forall₂_same]
    intro p _
    by_cases hc : p.2.FromSelf = true ∧ p.2.Timestamp ∈ r.Timestamps
    · refine ⟨rfl, fun _ => ?_, fun hn => absurd hc hn⟩
      simp [receiptApply, hc]
    · refine ⟨rfl, fun hx => absurd hx hc, fun _ => ?_⟩
      simp [receiptApply, hc]
  · intro hnone
    have hmap : conv.Messages.map (fun p => (p.1, receiptApply r p.2))
        = conv.Messages :=
      calc conv.Messages.map (fun p => (p.1, receiptApply r p.2))
          = conv.Messages.map id :=
            List.map_congr_left (fun p hp => by
              simp [receiptApply, hnone p hp])
        _ = conv.Messages := List.map_id _
    cases conv
    simp only [applyReceipt] at hmap ⊢
    rw [hmap]

/-- Witness for C5 at a conversation holding one self-sent message and a
delivery receipt whose batch matches its timestamp. -/
theorem C5_witness :
    ((applyReceipt exConvSelf exReceipt).MessageOrder
        = exConvSelf.MessageOrder ∧
     (applyReceipt exConvSelf exReceipt).HasNewMessage
        = exConvSelf.HasNewMessage ∧
     (applyReceipt exConvSelf exReceipt).PendingAttachments
        = exConvSelf.PendingAttachments) ∧
    List.Forall₂ (fun p q =>
        p.1 = q.1 ∧
        (p.2.FromSelf = true ∧ p.2.Timestamp ∈ exReceipt.Timestamps →
          q.2.IsDelivered = (p.2.IsDelivered || exReceipt.IsDelivery) ∧
          q.2.IsRead = (p.2.IsRead || exReceipt.IsRead) ∧
          q.2.Content = p.2.Content ∧ q.2.From = p.2.From ∧
          q.2.Source = p.2.Source ∧ q.2.Timestamp = p.2.Timestamp ∧
          q.2.FromSelf = p.2.FromSelf ∧
          q.2.Attachments = p.2.Attachments) ∧
        (¬(p.2.FromSelf = true ∧ p.2.Timestamp ∈ exReceipt.Timestamps) →
          q.2 = p.2))
      exConvSelf.Messages (applyReceipt exConvSelf exReceipt).Messages ∧
    ((∀ p ∈ exConvSelf.Messages,
        ¬(p.2.FromSelf = true ∧ p.2.Timestamp ∈ exReceipt.Timestamps)) →
      applyReceipt exConvSelf exReceipt = exConvSelf) :=
  C5_applyReceipt exConvSelf exReceipt

/-- C6: the dispatcher's optimistic local echo: a send immediately records, in
the Conversation Store and with no network input, a message with
`FromSelf = true`, not delivered, not read, holding the conversation's pending
attachments, appended to the ordered sequence, and it clears the pending
attachments. -/
theorem C6_send_local_echo (self : String) (now : Int) (conv : Conversation)
    (text : String)
    (h : ((self, now) : String × Int) ∉ conv.Messages.map Prod.fst) :
    (send self now conv text).PendingAttachments = [] ∧
    (send self now conv text).MessageOrder
      = conv.MessageOrder ++ [(self, now)] ∧
    ∃ m : Message,
      (send self now conv text).Messages
        = conv.Messages ++ [((self, now), m)] ∧
      m.FromSelf = true ∧ m.IsDelivered = false ∧ m.IsRead = false ∧
      m.Content = text ∧ m.Attachments = conv.PendingAttachments := by
  refine ⟨?_, ?_, ?_⟩
  · simp [send, applyIncoming, Message.ident, h]
  · simp [send, applyIncoming, Message.ident, h]
  · refine ⟨⟨text, self, self, now, false, false, true,
      conv.PendingAttachments⟩, ?_, rfl, rfl, rfl, rfl, rfl⟩
    simp [send, applyIncoming, Message.ident, h]

/-- Witness for C6 at a conversation with one pending attachment and a fresh
send timestamp. -/
theorem C6_witness :
    ((("+15550009", 5000) : String × Int)
        ∉ (Conversation.mk exContact [] [] false [exAtt2]).Messages.map Prod.fst) ∧
    ((send "+15550009" 5000 (Conversation.mk exContact [] [] false [exAtt2])
        "hello").PendingAttachments = [] ∧
     (send "+15550009" 5000 (Conversation.mk exContact [] [] false [exAtt2])
        "hello").MessageOrder
       = (Conversation.mk exContact [] [] false [exAtt2]).MessageOrder
           ++ [("+15550009", 5000)] ∧
     ∃ m : Message,
       (send "+15550009" 5000 (Conversation.mk exContact [] [] false [exAtt2])
          "hello").Messages
         = (Conversation.mk exContact [] [] false [exAtt2]).Messages
             ++ [(("+15550009", 5000), m)] ∧
       m.FromSelf = true ∧ m.IsDelivered = false ∧ m.IsRead = false ∧
       m.Content = "hello" ∧
       m.Attachments
         = (Conversation.mk exContact [] [] false [exAtt2]).PendingAttachments) :=
  ⟨by decide, C6_send_local_echo "+15550009" 5000 _ "hello" (by decide)⟩

/-- C7 counterexample: on a conversation that already holds the incoming
message's `(source, timestamp)` identity and has `HasNewMessage = false`,
`applyIncoming` while inactive discards the duplicate and a `HasNewMessage`
query afterwards still returns false, not true as the claim states. -/
theorem C7_counterexample :
    exConvDup.HasNewMessage = false ∧
    (applyIncoming false exConvDup exMsg).HasNewMessage = false := by
  decide

/-- C7 (amended): marking a conversation viewed immediately clears
`HasNewMessage`, and `applyIncoming` of a message whose identity is not
already recorded, on an inactive conversation, makes a `HasNewMessage` query
return true (a duplicate is discarded and leaves the flag unchanged). -/
theorem C7_markViewed_applyIncoming (conv : Conversation) (m : Message)
    (h : m.ident ∉ conv.Messages.map Prod.fst) :
    (markViewed conv).HasNewMessage = false ∧
    (applyIncoming false conv m).HasNewMessage = true := by
  exact ⟨rfl, by simp [applyIncoming, h]⟩

/-- Witness for C7 at the empty conversation of a concrete contact. -/
theorem C7_witness :
    exMsg.ident ∉ (newConversation exContact).Messages.map Prod.fst ∧
    ((markViewed (newConversation exContact)).HasNewMessage = false ∧
     (applyIncoming false (newConversation exContact) exMsg).HasNewMessage
       = true) :=
  ⟨by decide, C7_markViewed_applyIncoming _ _ (by decide)⟩

/-- The attachment loop of `getAttachments` computes, around its accumulator,
the concatenation of the attachment lists of the looked-up messages, provided
every identifier of the walked order resolves in the map. -/
theorem getAttachmentsGo_spec (msgs : List ((String × Int) × Message)) :
    ∀ (order : List (String × Int)) (acc : List Attachment),
    (∀ id ∈ order, (msgs.find? (fun p => p.1 == id)).isSome = true) →
    getAttachmentsGo msgs order acc =
      some (acc ++ (order.map (fun id =>
        match msgs.find? (fun p => p.1 == id) with
        | some p => p.2.Attachments
        | none => [])).flatten) := by
  intro order
  induction order with
  | nil => intro acc _; simp [getAttachmentsGo]
  | cons id rest ih =>
    intro acc h
    obtain ⟨p, hp⟩ := Option.isSome_iff_exists.mp (h id (by simp))
    have hacc : (if 0 < p.2.Attachments.length then acc ++ p.2.Attachments
        else acc) = acc ++ p.2.Attachments := by
      by_cases h0 : 0 < p.2.Attachments.length
      · rw [if_pos h0]
      · rw [if_neg h0,
          List.length_eq_zero.mp (by omega : p.2.Attachments.length = 0),
          List.append_nil]
    have hstep : getAttachmentsGo msgs (id :: rest) acc
        = getAttachmentsGo msgs rest
            (if 0 < p.2.Attachments.length then acc ++ p.2.Attachments
             else acc) := by
      rw [show getAttachmentsGo msgs (id :: rest) acc
            = match msgs.find? (fun q => q.1 == id) with
              | none => none
              | some q =>
                getAttachmentsGo msgs rest
                  (if 0 < q.2.Attachments.length then acc ++ q.2.Attachments
                   else acc) from rfl,
        hp]
    rw [hstep, hacc, ih _ (fun i hi => h i (by simp [hi]))]
    simp [hp, List.append_assoc]

/-- C8: for every conversation whose ordered sequence resolves in the message
map (the lock-step invariant's one direction), `getAttachments` returns
exactly the concatenation of the attachment lists of the conversation's
messages in the order of the ordered message sequence. -/
theorem C8_getAttachments (conv : Conversation)
    (h : ∀ id ∈ conv.MessageOrder, conv.hasMessage id = true) :
    getAttachments conv = some (attachmentsSpec conv) := by
  rw [getAttachments, getAttachmentsGo_spec conv.Messages conv.MessageOrder [] h]
  rw [attachmentsSpec]
  simp [Conversation.findEntry]

/-- Witness for C8 at a conversation of three messages with one, zero and two
attachments. -/
theorem C8_witness :
    (∀ id ∈ exConvAtt.MessageOrder, exConvAtt.hasMessage id = true) ∧
    getAttachments exConvAtt = some (attachmentsSpec exConvAtt) :=
  ⟨by decide, C8_getAttachments exConvAtt (by decide)⟩

/-- C9: refuted on the code: for every negative index (and every index at or
past the end of the list), `GotoIndex` yields no result at any recursion
depth: the Go code maps a negative `index` to `len - index`, which is at least
`len`, which in turn recurses with `-1`, so the call never terminates, against
the claim and the function's own comment that negative indexing is allowed. -/
theorem C9_gotoIndex_diverges (contacts : List Contact) (fuel : Nat)
    (index : Int)
    (h : index < 0 ∨ (contacts.length : Int) ≤ index) :
    GotoIndex contacts fuel index = none := by
  induction fuel generalizing index with
  | zero => rfl
  | succ f ih =>
    rcases h with h | h
    · rw [show GotoIndex contacts (f + 1) index
            = if index < 0 then
                GotoIndex contacts f ((contacts.length : Int) - index)
              else if (contacts.length : Int) ≤ index then
                GotoIndex contacts f (-1)
              else (contacts[index.toNat]?).map (fun c => (index, c))
          from rfl,
        if_pos h]
      exact ih _ (Or.inr (by omega))
    · rw [show GotoIndex contacts (f + 1) index
            = if index < 0 then
                GotoIndex contacts f ((contacts.length : Int) - index)
              else if (contacts.length : Int) ≤ index then
                GotoIndex contacts f (-1)
              else (contacts[index.toNat]?).map (fun c => (index, c))
          from rfl,
        if_neg (by omega : ¬ index < 0), if_pos h]
      exact ih _ (Or.inl (by omega))

/-- Witness for C9: `GotoIndex (-1)` on a one-element contact list produces no
contact even with a large recursion allowance. -/
theorem C9_witness : GotoIndex [exContact] 100 (-1) = none :=
  C9_gotoIndex_diverges [exContact] 100 (-1) (Or.inl (by decide))

/-- C10 counterexample: on an empty sorted contact list, `Next` and `Previous`
index out of the list's bounds (the Go code panics) instead of returning an
element of the list. -/
theorem C10_counterexample :
    (ContactListPanel.mk [] 0).Next.2 = none ∧
    (ContactListPanel.mk [] 0).Previous.2 = none := by
  decide

/-- An in-bounds integer index selects an element of the list. -/
theorem index_int_ok (l : List Contact) (i : Int) (h1 : 0 ≤ i)
    (h2 : i < (l.length : Int)) :
    ∃ c, (if i < 0 then none else l[i.toNat]?) = some c ∧ c ∈ l := by
  rw [if_neg (by omega : ¬ i < 0)]
  have hlt : i.toNat < l.length := by omega
  exact ⟨l[i.toNat], List.getElem?_eq_getElem hlt, List.getElem_mem hlt⟩

/-- C10 (amended): whenever the sorted contact list is non-empty and the
current index is within its bounds, `Next` and `Previous` keep the current
index within bounds and return an element of the list without faulting; on an
empty list both fault (index out of range). -/
theorem C10_next_previous_in_bounds (cl : ContactListPanel)
    (h1 : 0 ≤ cl.currentIndex)
    (h2 : cl.currentIndex < (cl.sortedContacts.length : Int)) :
    (0 ≤ cl.Next.1.currentIndex ∧
     cl.Next.1.currentIndex < (cl.sortedContacts.length : Int) ∧
     ∃ c, cl.Next.2 = some c ∧ c ∈ cl.sortedContacts) ∧
    (0 ≤ cl.Previous.1.currentIndex ∧
     cl.Previous.1.currentIndex < (cl.sortedContacts.length : Int) ∧
     ∃ c, cl.Previous.2 = some c ∧ c ∈ cl.sortedContacts) := by
  constructor
  · by_cases hc : cl.currentIndex < (cl.sortedContacts.length : Int) - 1
    · simp only [ContactListPanel.Next, if_pos hc]
      exact ⟨by omega, by omega, index_int_ok _ _ (by omega) (by omega)⟩
    · simp only [ContactListPanel.Next, if_neg hc]
      exact ⟨h1, h2, index_int_ok _ _ h1 h2⟩
  · by_cases hc : 0 < cl.currentIndex
    · simp only [ContactListPanel.Previous, if_pos hc]
      exact ⟨by omega, by omega, index_int_ok _ _ (by omega) (by omega)⟩
    · simp only [ContactListPanel.Previous, if_neg hc]
      exact ⟨h1, h2, index_int_ok _ _ h1 h2⟩

/-- Witness for C10 at a one-element contact list with the index on its only
position. -/
theorem C10_witness :
    (0 ≤ (ContactListPanel.mk [exContact] 0).currentIndex ∧
     (ContactListPanel.mk [exContact] 0).currentIndex
       < ((ContactListPanel.mk [exContact] 0).sortedContacts.length : Int)) ∧
    ((0 ≤ (ContactListPanel.mk [exContact] 0).Next.1.currentIndex ∧
      (ContactListPanel.mk [exContact] 0).Next.1.currentIndex
        < ((ContactListPanel.mk [exContact] 0).sortedContacts.length : Int) ∧
      ∃ c, (ContactListPanel.mk [exContact] 0).Next.2 = some c ∧
        c ∈ (ContactListPanel.mk [exContact] 0).sortedContacts) ∧
     (0 ≤ (ContactListPanel.mk [exContact] 0).Previous.1.currentIndex ∧
      (ContactListPanel.mk [exContact] 0).Previous.1.currentIndex
        < ((ContactListPanel.mk [exContact] 0).sortedContacts.length : Int) ∧
      ∃ c, (ContactListPanel.mk [exContact] 0).Previous.2 = some c ∧
        c ∈ (ContactListPanel.mk [exContact] 0).sortedContacts)) :=
  ⟨⟨by decide, by decide⟩,
   C10_next_previous_in_bounds (ContactListPanel.mk [exContact] 0)
     (by decide) (by decide)⟩

end Siggo

